import Mathlib

/-!
Verification of the google-gemini-api-rag repository against its
natural-language specification.

Python strings are modelled as `List Char`; machine integers as `Nat`/`Int`.
External library primitives (SHA-256, the Gemini remote service, the SQL
engine) are modelled as explicit parameters or by translating the SQL
statement's semantics on an in-memory table state.
-/

/-- Python `str` is modelled as a list of characters. -/
abbrev Str := List Char

/-! ## Password hashing (src/db/models/base.py)

`hash_password` draws a random salt via `secrets.token_hex(16)`; randomness
is modelled by passing the salt as an explicit argument.  The external
`hashlib.sha256(...).hexdigest()` primitive is modelled as an explicit
function parameter `sha256hex`. -/

/-- Python `s.split(sep)` for a single-character separator: splits on every
occurrence of the separator (`"".split("$") == [""]`). -/
def pySplitChar (sep : Char) : Str → List Str
  | [] => [[]]
  | c :: cs =>
    if c = sep then [] :: pySplitChar sep cs
    else
      match pySplitChar sep cs with
      | [] => [[c]]
      | p :: ps => (c :: p) :: ps

/-- `hash_password` (base.py lines 13-28): salt is `secrets.token_hex(16)`
(passed explicitly here); result is `f"{salt}${pwd_hash}"` with
`pwd_hash = sha256((password + salt).encode()).hexdigest()`. -/
def hash_password (sha256hex : Str → Str) (salt password : Str) : Str :=
  salt ++ '$' :: sha256hex (password ++ salt)

/-- `verify_password` (base.py lines 31-50): `password_hash.split(sep="$")`
unpacked into `salt, pwd_hash`; a `ValueError` (any number of parts other
than two) is caught and yields `False`. -/
def verify_password (sha256hex : Str → Str) (password password_hash : Str) : Bool :=
  match pySplitChar '$' password_hash with
  | [salt, pwd_hash] => sha256hex (password ++ salt) == pwd_hash
  | _ => false

/-! ### Lemmas about `pySplitChar` -/

theorem pySplitChar_ne_nil (sep : Char) (l : Str) : pySplitChar sep l ≠ [] := by
  induction l with
  | nil => simp [pySplitChar]
  | cons c cs ih =>
    simp only [pySplitChar]
    by_cases h : c = sep
    · simp [h]
    · simp only [h, if_false]
      cases hsplit : pySplitChar sep cs with
      | nil => simp
      | cons p ps => simp

theorem pySplitChar_no_sep (sep : Char) (l : Str) (h : sep ∉ l) :
    pySplitChar sep l = [l] := by
  induction l with
  | nil => rfl
  | cons c cs ih =>
    simp only [List.mem_cons, not_or] at h
    simp only [pySplitChar]
    rw [if_neg (fun hc => h.1 hc.symm), ih h.2]

theorem pySplitChar_append_sep (sep : Char) (l r : Str) (h : sep ∉ l) :
    pySplitChar sep (l ++ sep :: r) = l :: pySplitChar sep r := by
  induction l with
  | nil => simp [pySplitChar]
  | cons c cs ih =>
    simp only [List.mem_cons, not_or] at h
    simp only [List.cons_append, pySplitChar]
    rw [if_neg (fun hc => h.1 hc.symm)]
    simp only [List.append_eq]
    rw [ih h.2]

/-- Splitting a string that contains the separator yields the prefix before
the first separator as the head, and the split of the remainder as tail. -/
theorem pySplitChar_of_mem (sep : Char) (l : Str) (h : sep ∈ l) :
    pySplitChar sep l =
      l.takeWhile (fun c => !(c == sep)) ::
        pySplitChar sep ((l.dropWhile (fun c => !(c == sep))).tail) := by
  induction l with
  | nil => cases h
  | cons c cs ih =>
    by_cases hc : c = sep
    · subst hc
      simp [pySplitChar, List.takeWhile, List.dropWhile]
    · have hmem : sep ∈ cs := by
        cases h with
        | head => exact absurd rfl hc
        | tail _ h' => exact h'
      simp only [pySplitChar, if_neg hc]
      rw [ih hmem]
      have hbeq : (c == sep) = false := by
        simp [hc]
      simp [List.takeWhile, List.dropWhile, hbeq]

theorem pySplitChar_length_ge_two (sep : Char) (l : Str) (h : sep ∈ l) :
    2 ≤ (pySplitChar sep l).length := by
  rw [pySplitChar_of_mem sep l h]
  have := pySplitChar_ne_nil sep ((l.dropWhile (fun c => !(c == sep))).tail)
  cases hsplit : pySplitChar sep ((l.dropWhile (fun c => !(c == sep))).tail) with
  | nil => exact absurd hsplit this
  | cons p ps => simp

/-! ## C4 / C5 : password round-trip and verification split semantics -/

/-- C4: verifying the right password against its own hash succeeds;
a wrong password fails (given that SHA-256 does not collide on the two
salted inputs); any stored value containing no `$` fails (rather than
erroring). Hypotheses `hsalt` and `hdig` record that `secrets.token_hex`
and `hexdigest` produce hexadecimal text, which never contains `$`. -/
theorem password_round_trip
    (sha256hex : Str → Str) (salt p w : Str)
    (hsalt : '$' ∉ salt)
    (hdig : '$' ∉ sha256hex (p ++ salt))
    (hwp : w ≠ p)
    (hinj : sha256hex (w ++ salt) = sha256hex (p ++ salt) → w = p) :
    verify_password sha256hex p (hash_password sha256hex salt p) = true ∧
    verify_password sha256hex w (hash_password sha256hex salt p) = false ∧
    ∀ a v, '$' ∉ v → verify_password sha256hex a v = false := by
  have hsplit : pySplitChar '$' (hash_password sha256hex salt p) =
      [salt, sha256hex (p ++ salt)] := by
    unfold hash_password
    rw [pySplitChar_append_sep '$' salt _ hsalt,
        pySplitChar_no_sep '$' _ hdig]
  refine ⟨?_, ?_, ?_⟩
  · unfold verify_password
    rw [hsplit]
    simp
  · unfold verify_password
    rw [hsplit]
    simp only [beq_iff_eq]
    by_cases hcol : sha256hex (w ++ salt) = sha256hex (p ++ salt)
    · exact absurd (hinj hcol) hwp
    · simp [hcol]
  · intro a v hv
    unfold verify_password
    rw [pySplitChar_no_sep '$' v hv]

/-- Closed witness for `password_round_trip` at a concrete hash function,
salt and password pair. -/
theorem password_round_trip_witness :
    verify_password (fun s => 'h' :: s) "pw".toList
      (hash_password (fun s => 'h' :: s) "abcd".toList "pw".toList) = true ∧
    verify_password (fun s => 'h' :: s) "xx".toList
      (hash_password (fun s => 'h' :: s) "abcd".toList "pw".toList) = false ∧
    ∀ a v, '$' ∉ v →
      verify_password (fun s => 'h' :: s) a v = false := by
  exact password_round_trip (fun s => 'h' :: s) "abcd".toList "pw".toList
    "xx".toList (by decide) (by decide) (by decide)
    (fun h => absurd h (by decide))

/-- The specification's description of verification, stated from its own
words: split the stored value on the FIRST `$` into a salt part and a digest
part; succeed exactly when the recomputed digest equals the digest part. -/
def specVerifySplitFirst (sha256hex : Str → Str) (password stored : Str) : Bool :=
  let salt := stored.takeWhile (fun c => !(c == '$'))
  let digest := (stored.dropWhile (fun c => !(c == '$'))).tail
  sha256hex (password ++ salt) == digest

/-- C5: for every stored value containing at least one `$`, the code's
`verify_password` agrees with the spec's split-on-first-`$` semantics
(the hypothesis again records that a SHA-256 hex digest contains no `$`). -/
theorem verify_password_split_semantics
    (sha256hex : Str → Str) (password stored : Str)
    (hmem : '$' ∈ stored)
    (hdig : '$' ∉ sha256hex (password ++ stored.takeWhile (fun c => !(c == '$')))) :
    verify_password sha256hex password stored =
      specVerifySplitFirst sha256hex password stored := by
  unfold verify_password specVerifySplitFirst
  rw [pySplitChar_of_mem '$' stored hmem]
  set salt := stored.takeWhile (fun c => !(c == '$')) with hsaltdef
  set rest := (stored.dropWhile (fun c => !(c == '$'))).tail with hrestdef
  by_cases hr : '$' ∈ rest
  · -- more than one '$': the code returns false via the failed unpack;
    -- the spec formula compares the digest against text containing '$',
    -- which a SHA-256 hex digest never does, hence also false.
    have h2 := pySplitChar_length_ge_two '$' rest hr
    have hne : sha256hex (password ++ salt) ≠ rest := by
      intro he
      exact hdig (he ▸ hr)
    cases hsplit : pySplitChar '$' rest with
    | nil => exact absurd hsplit (pySplitChar_ne_nil '$' rest)
    | cons p ps =>
      cases ps with
      | nil => rw [hsplit] at h2; simp at h2
      | cons q qs =>
        cases qs with
        | nil => simp [beq_iff_eq, hne]
        | cons r rs => simp [beq_iff_eq, hne]
  · rw [pySplitChar_no_sep '$' rest hr]

/-- Closed witness for `verify_password_split_semantics`. -/
theorem verify_password_split_semantics_witness :
    verify_password (fun s => 'h' :: s) "pw".toList "ab$cd".toList =
      specVerifySplitFirst (fun s => 'h' :: s) "pw".toList "ab$cd".toList := by
  exact verify_password_split_semantics (fun s => 'h' :: s) "pw".toList
    "ab$cd".toList (by decide) (by decide)

/-! ## Database model (src/db/models/*)

The PostgreSQL tables are modelled as in-memory lists of rows; each
data-access method's SQL statement is translated into its effect on that
state.  `SERIAL` id assignment and `CURRENT_TIMESTAMP` are external inputs
and are passed as explicit `new_id` / `now` arguments. -/

/-- One row of the `chat_sessions` table. -/
structure SessionRow where
  id : Nat
  user_id : Nat
  title : Str
  created_at : Nat
  updated_at : Nat
  is_deleted : Bool
deriving Repr, DecidableEq

/-- One row of the `messages` table. -/
structure MessageRow where
  id : Nat
  chat_session_id : Nat
  role : Str
  content : Str
  created_at : Nat
deriving Repr, DecidableEq

/-- One row of the `documents` table. -/
structure DocumentRow where
  id : Nat
  chat_session_id : Nat
  filename : Str
  file_path : Str
  gemini_file_uri : Option Str
  gemini_file_name : Option Str
  mime_type : Option Str
  file_size : Option Nat
  uploaded_at : Nat
deriving Repr, DecidableEq

/-- The database state (the `users` table plays no role in the claims
settled here and is omitted). -/
structure DB where
  chat_sessions : List SessionRow
  messages : List MessageRow
  documents : List DocumentRow
deriving Repr, DecidableEq

/-- The primary-key invariant of `chat_sessions.id` (SERIAL PRIMARY KEY). -/
def sessionIdsNodup (db : DB) : Prop :=
  (db.chat_sessions.map (fun r => r.id)).Nodup

/-- Projection returned by `ChatSession.get_by_id`
(`SELECT id, user_id, title, created_at, updated_at`). -/
structure SessionView where
  id : Nat
  user_id : Nat
  title : Str
  created_at : Nat
  updated_at : Nat
deriving Repr, DecidableEq

/-- Projection returned by `ChatSession.list_by_user`
(`SELECT id, title, created_at, updated_at`). -/
structure SessionListItem where
  id : Nat
  title : Str
  created_at : Nat
  updated_at : Nat
deriving Repr, DecidableEq

/-- Insert one row into a list kept in `updated_at`-descending order. -/
def insertByUpdatedDesc (r : SessionRow) : List SessionRow → List SessionRow
  | [] => [r]
  | s :: rest =>
    if s.updated_at < r.updated_at then r :: s :: rest
    else s :: insertByUpdatedDesc r rest

/-- `ORDER BY updated_at DESC` as an insertion sort. -/
def sortByUpdatedDesc (l : List SessionRow) : List SessionRow :=
  l.foldr insertByUpdatedDesc []

namespace ChatSession

/-- `ChatSession.create` (chat_session.py lines 14-43): `INSERT INTO
chat_sessions (user_id, title) VALUES ($1,$2) RETURNING id`. -/
def create (db : DB) (user_id : Nat) (title : Str) (new_id now : Nat) :
    DB × Option Nat :=
  ({ db with chat_sessions :=
      db.chat_sessions ++ [⟨new_id, user_id, title, now, now, false⟩] },
   some new_id)

/-- `ChatSession.get_by_id` (lines 45-74): `SELECT ... WHERE id = $1 AND
user_id = $2 AND is_deleted = FALSE`; `fetchrow` returns the first row. -/
def get_by_id (db : DB) (session_id user_id : Nat) : Option SessionView :=
  (db.chat_sessions.find? fun r =>
      r.id == session_id && r.user_id == user_id && r.is_deleted == false).map
    (fun r => ⟨r.id, r.user_id, r.title, r.created_at, r.updated_at⟩)

/-- `ChatSession.list_by_user` (lines 76-103): `SELECT ... WHERE user_id = $1
AND is_deleted = FALSE ORDER BY updated_at DESC`. -/
def list_by_user (db : DB) (user_id : Nat) : List SessionListItem :=
  (sortByUpdatedDesc (db.chat_sessions.filter fun r =>
      r.user_id == user_id && r.is_deleted == false)).map
    (fun r => ⟨r.id, r.title, r.created_at, r.updated_at⟩)

/-- `ChatSession.count_by_user` (lines 105-127): `SELECT COUNT(*) FROM
chat_sessions WHERE user_id = $1` — no `is_deleted` filter. -/
def count_by_user (db : DB) (user_id : Nat) : Nat :=
  db.chat_sessions.countP (fun r => r.user_id == user_id)

/-- `ChatSession.update_title` (lines 129-161): `UPDATE chat_sessions SET
title = $1, updated_at = CURRENT_TIMESTAMP WHERE id = $2 AND user_id = $3
AND is_deleted = FALSE`; returns `result != "UPDATE 0"`. -/
def update_title (db : DB) (session_id user_id : Nat) (new_title : Str)
    (now : Nat) : DB × Bool :=
  let hit := fun (r : SessionRow) =>
    r.id == session_id && r.user_id == user_id && r.is_deleted == false
  let rows := db.chat_sessions.map fun r =>
    if hit r then { r with title := new_title, updated_at := now } else r
  ({ db with chat_sessions := rows }, db.chat_sessions.countP hit != 0)

/-- `ChatSession.delete` (lines 163-190), the soft delete: `UPDATE
chat_sessions SET is_deleted = TRUE, updated_at = CURRENT_TIMESTAMP WHERE
id = $1 AND user_id = $2`; returns `result != "UPDATE 0"`. -/
def delete (db : DB) (session_id user_id : Nat) (now : Nat) : DB × Bool :=
  let hit := fun (r : SessionRow) => r.id == session_id && r.user_id == user_id
  let rows := db.chat_sessions.map fun r =>
    if hit r then { r with is_deleted := true, updated_at := now } else r
  ({ db with chat_sessions := rows }, db.chat_sessions.countP hit != 0)

/-- `ChatSession.hard_delete` (lines 192-241): verify ownership first
(`SELECT id ... WHERE id = $1 AND user_id = $2`, no `is_deleted` filter),
then delete documents, then messages, then the session row. -/
def hard_delete (db : DB) (session_id user_id : Nat) : DB × Bool :=
  match db.chat_sessions.find?
      (fun r => r.id == session_id && r.user_id == user_id) with
  | none => (db, false)
  | some _ =>
    let docs := db.documents.filter fun d => !(d.chat_session_id == session_id)
    let db1 := { db with documents := docs }
    let msgs := db1.messages.filter fun m => !(m.chat_session_id == session_id)
    let db2 := { db1 with messages := msgs }
    let hit := fun (r : SessionRow) => r.id == session_id && r.user_id == user_id
    let rows := db2.chat_sessions.filter fun r => !(hit r)
    ({ db2 with chat_sessions := rows }, db.chat_sessions.countP hit != 0)

end ChatSession

namespace Message

/-- `Message.create` (message.py lines 14-53): inserts the row and then
bumps the owning session's `updated_at` (`UPDATE chat_sessions SET
updated_at = CURRENT_TIMESTAMP WHERE id = $1`). -/
def create (db : DB) (chat_session_id : Nat) (role content : Str)
    (new_id now : Nat) : DB × Option Nat :=
  let msgs := db.messages ++ [⟨new_id, chat_session_id, role, content, now⟩]
  let rows := db.chat_sessions.map fun r =>
    if r.id == chat_session_id then { r with updated_at := now } else r
  ({ db with messages := msgs, chat_sessions := rows }, some new_id)

/-- `Message.list_by_session` (lines 55-82): `SELECT ... WHERE
chat_session_id = $1 ORDER BY created_at ASC`.  Rows are inserted in
`created_at` order in this model, so the filter is already sorted. -/
def list_by_session (db : DB) (chat_session_id : Nat) : List MessageRow :=
  db.messages.filter fun m => m.chat_session_id == chat_session_id

end Message

/-- Projection returned by `Document.list_by_session`. -/
structure DocumentView where
  id : Nat
  filename : Str
  file_path : Str
  gemini_file_uri : Option Str
  gemini_file_name : Option Str
  mime_type : Option Str
  file_size : Option Nat
  uploaded_at : Nat
deriving Repr, DecidableEq

/-- Insert one document row into a list kept in `uploaded_at`-descending
order. -/
def insertByUploadedDesc (r : DocumentRow) : List DocumentRow → List DocumentRow
  | [] => [r]
  | s :: rest =>
    if s.uploaded_at < r.uploaded_at then r :: s :: rest
    else s :: insertByUploadedDesc r rest

namespace Document

/-- `Document.create` (document.py lines 14-68). -/
def create (db : DB) (chat_session_id : Nat) (filename file_path : Str)
    (gemini_file_uri gemini_file_name mime_type : Option Str)
    (file_size : Option Nat) (new_id now : Nat) : DB × Option Nat :=
  ({ db with documents := db.documents ++
      [⟨new_id, chat_session_id, filename, file_path, gemini_file_uri,
        gemini_file_name, mime_type, file_size, now⟩] },
   some new_id)

/-- `Document.list_by_session` (lines 70-98): `SELECT ... WHERE
chat_session_id = $1 ORDER BY uploaded_at DESC`. -/
def list_by_session (db : DB) (chat_session_id : Nat) : List DocumentView :=
  ((db.documents.filter fun d =>
      d.chat_session_id == chat_session_id).foldr insertByUploadedDesc []).map
    (fun d => ⟨d.id, d.filename, d.file_path, d.gemini_file_uri,
      d.gemini_file_name, d.mime_type, d.file_size, d.uploaded_at⟩)

end Document

/-! ### List helper lemmas -/

theorem listMapIdOn {α : Type} (l : List α) (f : α → α)
    (h : ∀ x ∈ l, f x = x) : l.map f = l := by
  induction l with
  | nil => rfl
  | cons a as ih =>
    simp only [List.map_cons]
    rw [h a (List.mem_cons_self a as), ih (fun x hx => h x (List.mem_cons_of_mem a hx))]

theorem mem_insertByUpdatedDesc (r x : SessionRow) (l : List SessionRow) :
    x ∈ insertByUpdatedDesc r l ↔ x = r ∨ x ∈ l := by
  induction l with
  | nil => simp [insertByUpdatedDesc]
  | cons s rest ih =>
    simp only [insertByUpdatedDesc]
    by_cases h : s.updated_at < r.updated_at
    · simp [h]
    · simp only [h, if_false, List.mem_cons, ih]
      tauto

theorem mem_sortByUpdatedDesc (x : SessionRow) (l : List SessionRow) :
    x ∈ sortByUpdatedDesc l ↔ x ∈ l := by
  induction l with
  | nil => simp [sortByUpdatedDesc]
  | cons s rest ih =>
    simp only [sortByUpdatedDesc, List.foldr_cons] at *
    rw [mem_insertByUpdatedDesc, ih]
    simp [eq_comm]

/-! ## C2 : ownership isolation -/

/-- C2: for a session row `s` owned by a user other than `u2`, `get_by_id`,
`update_title` and `delete` called with `u2` all report not-found/false and
leave the database state — in particular `s`'s row — unchanged.  `hpk` is
the `chat_sessions.id` primary-key invariant. -/
theorem ownership_isolation (db : DB) (s : SessionRow) (u2 : Nat)
    (t : Str) (now : Nat)
    (hmem : s ∈ db.chat_sessions) (hpk : sessionIdsNodup db)
    (hu : s.user_id ≠ u2) :
    ChatSession.get_by_id db s.id u2 = none ∧
    ChatSession.update_title db s.id u2 t now = (db, false) ∧
    ChatSession.delete db s.id u2 now = (db, false) := by
  have key : ∀ r ∈ db.chat_sessions, (r.id == s.id && r.user_id == u2) = false := by
    intro r hr
    by_cases hid : r.id = s.id
    · have hrs : r = s :=
        List.inj_on_of_nodup_map hpk hr hmem (by simpa using hid)
      subst hrs
      simp [hu]
    · simp [hid]
  have key2 : ∀ r ∈ db.chat_sessions,
      (r.id == s.id && r.user_id == u2 && r.is_deleted == false) = false := by
    intro r hr
    have h1 := key r hr
    cases hb : (r.id == s.id) with
    | false => simp [hb]
    | true =>
      rw [hb] at h1
      simp only [Bool.true_and] at h1
      simp [hb, h1]
  refine ⟨?_, ?_, ?_⟩
  · unfold ChatSession.get_by_id
    rw [List.find?_eq_none.mpr]
    · rfl
    · intro r hr
      simp only [Bool.not_eq_true]
      exact key2 r hr
  · unfold ChatSession.update_title
    have hmap : (db.chat_sessions.map fun r =>
        if r.id == s.id && r.user_id == u2 && r.is_deleted == false then
          { r with title := t, updated_at := now } else r) = db.chat_sessions :=
      listMapIdOn _ _ (fun r hr => by rw [key2 r hr]; rfl)
    have hcnt : (db.chat_sessions.countP fun r =>
        r.id == s.id && r.user_id == u2 && r.is_deleted == false) = 0 :=
      List.countP_eq_zero.mpr (fun r hr => by rw [key2 r hr]; simp)
    simp only [hmap, hcnt]
    rfl
  · unfold ChatSession.delete
    have hmap : (db.chat_sessions.map fun r =>
        if r.id == s.id && r.user_id == u2 then
          { r with is_deleted := true, updated_at := now } else r) = db.chat_sessions :=
      listMapIdOn _ _ (fun r hr => by rw [key r hr]; rfl)
    have hcnt : (db.chat_sessions.countP fun r =>
        r.id == s.id && r.user_id == u2) = 0 :=
      List.countP_eq_zero.mpr (fun r hr => by rw [key r hr]; simp)
    simp only [hmap, hcnt]
    rfl

/-- Closed witness for `ownership_isolation` on a two-user database. -/
theorem ownership_isolation_witness :
    ChatSession.get_by_id
      ⟨[⟨1, 1, "New Chat".toList, 0, 0, false⟩], [], []⟩ 1 2 = none ∧
    ChatSession.update_title
      ⟨[⟨1, 1, "New Chat".toList, 0, 0, false⟩], [], []⟩ 1 2 "x".toList 7 =
      (⟨[⟨1, 1, "New Chat".toList, 0, 0, false⟩], [], []⟩, false) ∧
    ChatSession.delete
      ⟨[⟨1, 1, "New Chat".toList, 0, 0, false⟩], [], []⟩ 1 2 7 =
      (⟨[⟨1, 1, "New Chat".toList, 0, 0, false⟩], [], []⟩, false) := by
  exact ownership_isolation
    ⟨[⟨1, 1, "New Chat".toList, 0, 0, false⟩], [], []⟩
    ⟨1, 1, "New Chat".toList, 0, 0, false⟩ 2 "x".toList 7
    (by decide) (by unfold sessionIdsNodup; decide) (by decide)

/-! ## C3 : soft versus hard delete -/

theorem listMapCongrOn {α β : Type} (l : List α) (f g : α → β)
    (h : ∀ x ∈ l, f x = g x) : l.map f = l.map g := by
  induction l with
  | nil => rfl
  | cons a as ih =>
    simp only [List.map_cons]
    rw [h a (List.mem_cons_self a as), ih (fun x hx => h x (List.mem_cons_of_mem a hx))]

/-- C3: after a soft `delete(S1, U1)` the session disappears from
`list_by_user` while `count_by_user` is unchanged; a subsequent
`hard_delete(S1, U1)` succeeds and removes S1's messages, documents and
session row. -/
theorem soft_vs_hard_delete (db : DB) (s : SessionRow) (now : Nat)
    (hmem : s ∈ db.chat_sessions) (hpk : sessionIdsNodup db) :
    (∀ item ∈ ChatSession.list_by_user
        (ChatSession.delete db s.id s.user_id now).1 s.user_id,
      item.id ≠ s.id) ∧
    ChatSession.count_by_user (ChatSession.delete db s.id s.user_id now).1
        s.user_id =
      ChatSession.count_by_user db s.user_id ∧
    (ChatSession.hard_delete (ChatSession.delete db s.id s.user_id now).1
        s.id s.user_id).2 = true ∧
    (∀ m ∈ (ChatSession.hard_delete (ChatSession.delete db s.id s.user_id now).1
        s.id s.user_id).1.messages, m.chat_session_id ≠ s.id) ∧
    (∀ d ∈ (ChatSession.hard_delete (ChatSession.delete db s.id s.user_id now).1
        s.id s.user_id).1.documents, d.chat_session_id ≠ s.id) ∧
    (∀ r ∈ (ChatSession.hard_delete (ChatSession.delete db s.id s.user_id now).1
        s.id s.user_id).1.chat_sessions, r.id ≠ s.id) := by
  set f := fun (r : SessionRow) =>
    if r.id == s.id && r.user_id == s.user_id then
      { r with is_deleted := true, updated_at := now } else r with hf
  have hfid : ∀ r, (f r).id = r.id := by
    intro r
    rw [hf]
    by_cases h : (r.id == s.id && r.user_id == s.user_id) = true <;> simp [h]
  have hfuser : ∀ r, (f r).user_id = r.user_id := by
    intro r
    rw [hf]
    by_cases h : (r.id == s.id && r.user_id == s.user_id) = true <;> simp [h]
  have hdel : (ChatSession.delete db s.id s.user_id now).1 =
      { db with chat_sessions := db.chat_sessions.map f } := by
    rw [hf]
    rfl
  have hfs : f s = { s with is_deleted := true, updated_at := now } := by
    rw [hf]
    simp
  -- any row of the soft-deleted table carrying S1's id is the flagged row
  have hid_eq : ∀ r ∈ db.chat_sessions.map f, r.id = s.id → r = f s := by
    intro r hr hrid
    rcases List.mem_map.mp hr with ⟨r0, hr0, hfr0⟩
    have hr0id : r0.id = s.id := by rw [← hfr0] at hrid; rw [← hrid, hfid]
    have : r0 = s := List.inj_on_of_nodup_map hpk hr0 hmem (by simpa using hr0id)
    rw [← hfr0, this]
  refine ⟨?_, ?_, ?_, ?_, ?_, ?_⟩
  · -- list_by_user no longer contains S1
    intro item hitem
    rw [hdel] at hitem
    unfold ChatSession.list_by_user at hitem
    rcases List.mem_map.mp hitem with ⟨r, hrsorted, hview⟩
    rw [mem_sortByUpdatedDesc] at hrsorted
    have hrfil := List.mem_filter.mp hrsorted
    intro hcontra
    have hrid : r.id = s.id := by rw [← hview] at hcontra; exact hcontra
    have hrfs : r = f s := hid_eq r hrfil.1 hrid
    have : r.is_deleted = true := by rw [hrfs, hfs]
    have hdelfalse := hrfil.2
    simp only [Bool.and_eq_true, beq_iff_eq] at hdelfalse
    rw [this] at hdelfalse
    exact absurd hdelfalse.2 (by decide)
  · -- count_by_user unchanged
    rw [hdel]
    unfold ChatSession.count_by_user
    simp only [List.countP_map]
    exact List.countP_congr (fun r _ => by
      simp only [Function.comp_apply, hfuser r])
  · -- hard delete returns true
    rw [hdel]
    unfold ChatSession.hard_delete
    have hfsmem : f s ∈ db.chat_sessions.map f := List.mem_map_of_mem f hmem
    have hfs_hit : (fun r => r.id == s.id && r.user_id == s.user_id) (f s) = true := by
      simp [hfid s, hfuser s]
    have hsome : ∃ y, (db.chat_sessions.map f).find?
        (fun r => r.id == s.id && r.user_id == s.user_id) = some y := by
      rw [← Option.isSome_iff_exists, List.find?_isSome]
      exact ⟨f s, hfsmem, hfs_hit⟩
    rcases hsome with ⟨y, hy⟩
    simp only [hy]
    have hpos : 0 < (db.chat_sessions.map f).countP
        (fun r => r.id == s.id && r.user_id == s.user_id) :=
      List.countP_pos_iff.mpr ⟨f s, hfsmem, hfs_hit⟩
    simpa using Nat.pos_iff_ne_zero.mp hpos
  · -- S1's messages are gone
    intro m hm
    rw [hdel] at hm
    unfold ChatSession.hard_delete at hm
    rcases hfind : (db.chat_sessions.map f).find?
        (fun r => r.id == s.id && r.user_id == s.user_id) with _ | y
    · rw [hfind] at hm
      simp only at hm
      have hfsmem : f s ∈ db.chat_sessions.map f := List.mem_map_of_mem f hmem
      have := List.find?_eq_none.mp hfind (f s) hfsmem
      simp [hfid s, hfuser s] at this
    · rw [hfind] at hm
      simp only at hm
      have := (List.mem_filter.mp hm).2
      simpa using this
  · -- S1's documents are gone
    intro d hd
    rw [hdel] at hd
    unfold ChatSession.hard_delete at hd
    rcases hfind : (db.chat_sessions.map f).find?
        (fun r => r.id == s.id && r.user_id == s.user_id) with _ | y
    · rw [hfind] at hd
      simp only at hd
      have hfsmem : f s ∈ db.chat_sessions.map f := List.mem_map_of_mem f hmem
      have := List.find?_eq_none.mp hfind (f s) hfsmem
      simp [hfid s, hfuser s] at this
    · rw [hfind] at hd
      simp only at hd
      have := (List.mem_filter.mp hd).2
      simpa using this
  · -- S1's session row is gone
    intro r hr
    rw [hdel] at hr
    unfold ChatSession.hard_delete at hr
    rcases hfind : (db.chat_sessions.map f).find?
        (fun r => r.id == s.id && r.user_id == s.user_id) with _ | y
    · rw [hfind] at hr
      simp only at hr
      have hfsmem : f s ∈ db.chat_sessions.map f := List.mem_map_of_mem f hmem
      have := List.find?_eq_none.mp hfind (f s) hfsmem
      simp [hfid s, hfuser s] at this
    · rw [hfind] at hr
      simp only at hr
      have hrfil := List.mem_filter.mp hr
      intro hcontra
      have hrfs : r = f s := hid_eq r hrfil.1 hcontra
      have hhit := hrfil.2
      rw [hrfs] at hhit
      simp [hfid s, hfuser s] at hhit

/-- Closed witness for `soft_vs_hard_delete` on a one-session database with
one message and one document. -/
theorem soft_vs_hard_delete_witness :
    (∀ item ∈ ChatSession.list_by_user
        (ChatSession.delete
          ⟨[⟨1, 1, "T".toList, 0, 0, false⟩],
           [⟨1, 1, "user".toList, "hi".toList, 0⟩],
           [⟨1, 1, "a.pdf".toList, "p".toList, none, none, none, none, 0⟩]⟩
          1 1 9).1 1,
      item.id ≠ 1) ∧
    ChatSession.count_by_user
        (ChatSession.delete
          ⟨[⟨1, 1, "T".toList, 0, 0, false⟩],
           [⟨1, 1, "user".toList, "hi".toList, 0⟩],
           [⟨1, 1, "a.pdf".toList, "p".toList, none, none, none, none, 0⟩]⟩
          1 1 9).1 1 =
      ChatSession.count_by_user
        ⟨[⟨1, 1, "T".toList, 0, 0, false⟩],
         [⟨1, 1, "user".toList, "hi".toList, 0⟩],
         [⟨1, 1, "a.pdf".toList, "p".toList, none, none, none, none, 0⟩]⟩ 1 ∧
    (ChatSession.hard_delete
        (ChatSession.delete
          ⟨[⟨1, 1, "T".toList, 0, 0, false⟩],
           [⟨1, 1, "user".toList, "hi".toList, 0⟩],
           [⟨1, 1, "a.pdf".toList, "p".toList, none, none, none, none, 0⟩]⟩
          1 1 9).1 1 1).2 = true ∧
    (∀ m ∈ (ChatSession.hard_delete
        (ChatSession.delete
          ⟨[⟨1, 1, "T".toList, 0, 0, false⟩],
           [⟨1, 1, "user".toList, "hi".toList, 0⟩],
           [⟨1, 1, "a.pdf".toList, "p".toList, none, none, none, none, 0⟩]⟩
          1 1 9).1 1 1).1.messages, m.chat_session_id ≠ 1) ∧
    (∀ d ∈ (ChatSession.hard_delete
        (ChatSession.delete
          ⟨[⟨1, 1, "T".toList, 0, 0, false⟩],
           [⟨1, 1, "user".toList, "hi".toList, 0⟩],
           [⟨1, 1, "a.pdf".toList, "p".toList, none, none, none, none, 0⟩]⟩
          1 1 9).1 1 1).1.documents, d.chat_session_id ≠ 1) ∧
    (∀ r ∈ (ChatSession.hard_delete
        (ChatSession.delete
          ⟨[⟨1, 1, "T".toList, 0, 0, false⟩],
           [⟨1, 1, "user".toList, "hi".toList, 0⟩],
           [⟨1, 1, "a.pdf".toList, "p".toList, none, none, none, none, 0⟩]⟩
          1 1 9).1 1 1).1.chat_sessions, r.id ≠ 1) := by
  exact soft_vs_hard_delete
    ⟨[⟨1, 1, "T".toList, 0, 0, false⟩],
     [⟨1, 1, "user".toList, "hi".toList, 0⟩],
     [⟨1, 1, "a.pdf".toList, "p".toList, none, none, none, none, 0⟩]⟩
    ⟨1, 1, "T".toList, 0, 0, false⟩ 9
    (by decide) (by unfold sessionIdsNodup; decide)

/-! ## Response/citation formatter (src/utils/formatters.py)

The four `re.sub` calls use patterns over three disjoint character classes
(whitespace, digits, and the fixed delimiters), so greedy matching never
backtracks and each pattern is compiled here into a deterministic
maximal-munch matcher.  `\s`/`\d` are modelled as ASCII
whitespace/digits. -/

/-- Python `str(n)` for a non-negative integer. -/
def natStr (n : Nat) : Str := (toString n).toList

/-- Python `str(z)` for an integer. -/
def intStr (z : Int) : Str := (toString z).toList

/-- Parse `\s*(\d+)\)` at the head of `l`; on success return the digit
group and the remainder after the closing parenthesis. -/
def parsePageClose (l : Str) : Option (Str × Str) :=
  if (l.dropWhile Char.isWhitespace).takeWhile Char.isDigit = [] then none
  else
    match (l.dropWhile Char.isWhitespace).dropWhile Char.isDigit with
    | ')' :: tail =>
      some ((l.dropWhile Char.isWhitespace).takeWhile Char.isDigit, tail)
    | _ => none

/-- Parse `\s*(\d+)-(\d+)\)` at the head of `l`. -/
def parseRangeClose (l : Str) : Option ((Str × Str) × Str) :=
  if (l.dropWhile Char.isWhitespace).takeWhile Char.isDigit = [] then none
  else
    match (l.dropWhile Char.isWhitespace).dropWhile Char.isDigit with
    | '-' :: rest2 =>
      if rest2.takeWhile Char.isDigit = [] then none
      else
        match rest2.dropWhile Char.isDigit with
        | ')' :: tail =>
          some (((l.dropWhile Char.isWhitespace).takeWhile Char.isDigit,
                 rest2.takeWhile Char.isDigit), tail)
        | _ => none
    | _ => none

/-- Matcher for `r'",\s*p\.\s*(\d+)\)'` at the head of the text. -/
def matchQuotePage : Str → Option (Str × Str)
  | c :: rest =>
    if c = '"' then
      match rest with
      | ',' :: rest2 =>
        match rest2.dropWhile Char.isWhitespace with
        | 'p' :: '.' :: rest3 => parsePageClose rest3
        | _ => none
      | _ => none
    else none
  | [] => none

/-- Matcher for `r"\(p\.\s*(\d+)\)"` at the head of the text. -/
def matchParenPage : Str → Option (Str × Str)
  | c :: rest =>
    if c = '(' then
      match rest with
      | 'p' :: '.' :: rest2 => parsePageClose rest2
      | _ => none
    else none
  | [] => none

/-- Matcher for `r'",\s*p\.\s*(\d+)-(\d+)\)'` at the head of the text. -/
def matchQuoteRange : Str → Option ((Str × Str) × Str)
  | c :: rest =>
    if c = '"' then
      match rest with
      | ',' :: rest2 =>
        match rest2.dropWhile Char.isWhitespace with
        | 'p' :: '.' :: rest3 => parseRangeClose rest3
        | _ => none
      | _ => none
    else none
  | [] => none

/-- Matcher for `r"\(p\.\s*(\d+)-(\d+)\)"` at the head of the text. -/
def matchParenRange : Str → Option ((Str × Str) × Str)
  | c :: rest =>
    if c = '(' then
      match rest with
      | 'p' :: '.' :: rest2 => parseRangeClose rest2
      | _ => none
    else none
  | [] => none

/-- `re.sub` driver: scan left to right; at each position, if the matcher
fires, emit the replacement and continue after the match, else keep the
character.  Fuel-based for structural termination; `reSub` supplies
`l.length` fuel, which the shrink lemmas below show is always enough. -/
def reSubAux {α : Type} (m : Str → Option (α × Str)) (repl : α → Str) :
    Nat → Str → Str
  | _, [] => []
  | 0, l => l
  | fuel+1, c :: cs =>
    match m (c :: cs) with
    | some (g, rest) => repl g ++ reSubAux m repl fuel rest
    | none => c :: reSubAux m repl fuel cs

/-- `re.sub(pattern, repl, text)` for one of the four citation patterns. -/
def reSub {α : Type} (m : Str → Option (α × Str)) (repl : α → Str)
    (l : Str) : Str :=
  reSubAux m repl l.length l


theorem lenDropWhileLe (p : Char → Bool) (l : List Char) :
    (l.dropWhile p).length ≤ l.length :=
  List.Sublist.length_le (List.dropWhile_sublist p)

theorem parsePageClose_shrink (l g r : Str) (h : parsePageClose l = some (g, r)) :
    r.length < l.length := by
  unfold parsePageClose at h
  split at h
  · exact absurd h (by simp)
  · split at h
    · rename_i tail heq
      injection h with h'
      injection h' with hg hr
      subst hr
      have h2 : ((l.dropWhile Char.isWhitespace).dropWhile Char.isDigit).length ≤
          l.length :=
        le_trans (lenDropWhileLe _ _) (lenDropWhileLe _ _)
      rw [heq] at h2
      simp only [List.length_cons] at h2
      omega
    · exact absurd h (by simp)

theorem parseRangeClose_shrink (l : Str) (g : Str × Str) (r : Str)
    (h : parseRangeClose l = some (g, r)) : r.length < l.length := by
  unfold parseRangeClose at h
  split at h
  · exact absurd h (by simp)
  · split at h
    · rename_i rest2 heq
      split at h
      · exact absurd h (by simp)
      · split at h
        · rename_i tail heq2
          injection h with h'
          injection h' with hg hr
          subst hr
          have h2 : ((l.dropWhile Char.isWhitespace).dropWhile Char.isDigit).length ≤
              l.length :=
            le_trans (lenDropWhileLe _ _) (lenDropWhileLe _ _)
          rw [heq] at h2
          have h3 : (rest2.dropWhile Char.isDigit).length ≤ rest2.length :=
            lenDropWhileLe _ _
          rw [heq2] at h3
          simp only [List.length_cons] at h2 h3
          omega
        · exact absurd h (by simp)
    · exact absurd h (by simp)

theorem matchParenPage_shrink (l g r : Str) (h : matchParenPage l = some (g, r)) :
    r.length < l.length := by
  cases l with
  | nil => simp [matchParenPage] at h
  | cons c rest =>
    simp only [matchParenPage] at h
    split at h
    · split at h
      · rename_i rest2
        have h1 := parsePageClose_shrink rest2 g r h
        simp only [List.length_cons]
        omega
      · exact absurd h (by simp)
    · exact absurd h (by simp)

theorem matchQuotePage_shrink (l g r : Str) (h : matchQuotePage l = some (g, r)) :
    r.length < l.length := by
  cases l with
  | nil => simp [matchQuotePage] at h
  | cons c rest =>
    simp only [matchQuotePage] at h
    split at h
    · split at h
      · rename_i rest2
        split at h
        · rename_i rest3 heq
          have h1 := parsePageClose_shrink rest3 g r h
          have h2 : (rest2.dropWhile Char.isWhitespace).length ≤ rest2.length :=
            lenDropWhileLe _ _
          rw [heq] at h2
          simp only [List.length_cons] at h2 ⊢
          omega
        · exact absurd h (by simp)
      · exact absurd h (by simp)
    · exact absurd h (by simp)

theorem matchParenRange_shrink (l : Str) (g : Str × Str) (r : Str)
    (h : matchParenRange l = some (g, r)) : r.length < l.length := by
  cases l with
  | nil => simp [matchParenRange] at h
  | cons c rest =>
    simp only [matchParenRange] at h
    split at h
    · split at h
      · rename_i rest2
        have h1 := parseRangeClose_shrink rest2 g r h
        simp only [List.length_cons]
        omega
      · exact absurd h (by simp)
    · exact absurd h (by simp)

theorem matchQuoteRange_shrink (l : Str) (g : Str × Str) (r : Str)
    (h : matchQuoteRange l = some (g, r)) : r.length < l.length := by
  cases l with
  | nil => simp [matchQuoteRange] at h
  | cons c rest =>
    simp only [matchQuoteRange] at h
    split at h
    · split at h
      · rename_i rest2
        split at h
        · rename_i rest3 heq
          have h1 := parseRangeClose_shrink rest3 g r h
          have h2 : (rest2.dropWhile Char.isWhitespace).length ≤ rest2.length :=
            lenDropWhileLe _ _
          rw [heq] at h2
          simp only [List.length_cons] at h2 ⊢
          omega
        · exact absurd h (by simp)
      · exact absurd h (by simp)
    · exact absurd h (by simp)

theorem reSubAux_fuel {α : Type} (m : Str → Option (α × Str)) (repl : α → Str)
    (hm : ∀ l g r, m l = some (g, r) → r.length < l.length) :
    ∀ fuel l, l.length ≤ fuel →
      reSubAux m repl fuel l = reSubAux m repl l.length l := by
  intro fuel
  induction fuel using Nat.strong_induction_on with
  | _ fuel ih =>
    intro l hl
    match l with
    | [] => cases fuel <;> rfl
    | c :: cs =>
      simp only [List.length_cons] at hl
      match fuel, hl with
      | f + 1, hl =>
        simp only [reSubAux, List.length_cons]
        cases hmatch : m (c :: cs) with
        | some gr =>
          rcases gr with ⟨g, rest⟩
          have hless := hm _ _ _ hmatch
          simp only [List.length_cons] at hless
          have e1 : reSubAux m repl f rest = reSubAux m repl rest.length rest :=
            ih f (by omega) rest (by omega)
          have e2 : reSubAux m repl cs.length rest =
              reSubAux m repl rest.length rest :=
            ih cs.length (by omega) rest (by omega)
          simp only [e1, e2]
        | none =>
          have e1 : reSubAux m repl f cs = reSubAux m repl cs.length cs :=
            ih f (by omega) cs (by omega)
          simp only [e1]

theorem reSub_cons_match {α : Type} (m : Str → Option (α × Str)) (repl : α → Str)
    (hm : ∀ l g r, m l = some (g, r) → r.length < l.length)
    (c : Char) (cs : Str) (g : α) (rest : Str)
    (h : m (c :: cs) = some (g, rest)) :
    reSub m repl (c :: cs) = repl g ++ reSub m repl rest := by
  unfold reSub
  simp only [List.length_cons, reSubAux, h]
  have hless := hm _ _ _ h
  simp only [List.length_cons] at hless
  rw [reSubAux_fuel m repl hm cs.length rest (by omega)]

theorem reSub_cons_nomatch {α : Type} (m : Str → Option (α × Str)) (repl : α → Str)
    (c : Char) (cs : Str) (h : m (c :: cs) = none) :
    reSub m repl (c :: cs) = c :: reSub m repl cs := by
  unfold reSub
  simp only [List.length_cons, reSubAux, h]

theorem reSub_no_trigger {α : Type} (m : Str → Option (α × Str)) (repl : α → Str)
    (trigger : Char → Prop) [DecidablePred trigger]
    (hm0 : ∀ c cs, ¬trigger c → m (c :: cs) = none)
    (l : Str) (hl : ∀ c ∈ l, ¬trigger c) : reSub m repl l = l := by
  induction l with
  | nil => rfl
  | cons c cs ih =>
    rw [reSub_cons_nomatch m repl c cs (hm0 c cs (hl c (List.mem_cons_self c cs)))]
    rw [ih (fun x hx => hl x (List.mem_cons_of_mem c hx))]

theorem reSub_append_no_trigger {α : Type} (m : Str → Option (α × Str))
    (repl : α → Str) (trigger : Char → Prop) [DecidablePred trigger]
    (hm0 : ∀ c cs, ¬trigger c → m (c :: cs) = none)
    (pre rest : Str) (hpre : ∀ c ∈ pre, ¬trigger c) :
    reSub m repl (pre ++ rest) = pre ++ reSub m repl rest := by
  induction pre with
  | nil => rfl
  | cons c cs ih =>
    rw [List.cons_append,
      reSub_cons_nomatch m repl c (cs ++ rest)
        (hm0 c _ (hpre c (List.mem_cons_self c cs))),
      ih (fun x hx => hpre x (List.mem_cons_of_mem c hx))]
    rfl

/-! ### Response data model (google.genai response types, as used) -/

structure CitationSource where
  uri : Option Str
  start_index : Option Int
  end_index : Option Int
deriving Repr, DecidableEq

structure CitationMetadata where
  citations : List CitationSource
deriving Repr, DecidableEq

structure Candidate where
  citation_metadata : Option CitationMetadata
deriving Repr, DecidableEq

structure Response where
  text : Option Str
  candidates : List Candidate
deriving Repr, DecidableEq

/-- Python truthiness of an optional string (`None` and `""` are falsy). -/
def pyTruthyOptStr : Option Str → Bool
  | none => false
  | some s => !s.isEmpty

/-- Python `"\n".join(strs)`. -/
def pyJoinNL : List Str → Str
  | [] => []
  | [x] => x
  | x :: xs => x ++ '\n' :: pyJoinNL xs

/-- The four `re.sub` rewrites of formatters.py lines 49-73, applied in
source order, each to the output of the previous one. -/
def quotePageRepl (citation_path : Str) (ds : Str) : Str :=
  "\", [p. ".toList ++ ds ++ "](/public/".toList ++ citation_path ++
    "#page=".toList ++ ds ++ "))".toList

def parenPageRepl (citation_path : Str) (ds : Str) : Str :=
  "([p. ".toList ++ ds ++ "](/public/".toList ++ citation_path ++
    "#page=".toList ++ ds ++ "))".toList

def quoteRangeRepl (citation_path : Str) (g : Str × Str) : Str :=
  "\", [p. ".toList ++ g.1 ++ "-".toList ++ g.2 ++ "](/public/".toList ++
    citation_path ++ "#page=".toList ++ g.1 ++ "))".toList

def parenRangeRepl (citation_path : Str) (g : Str × Str) : Str :=
  "([p. ".toList ++ g.1 ++ "-".toList ++ g.2 ++ "](/public/".toList ++
    citation_path ++ "#page=".toList ++ g.1 ++ "))".toList

def linkPageCitations (citation_path : Str) (t : Str) : Str :=
  reSub matchParenRange (parenRangeRepl citation_path)
    (reSub matchQuoteRange (quoteRangeRepl citation_path)
      (reSub matchParenPage (parenPageRepl citation_path)
        (reSub matchQuotePage (quotePageRepl citation_path) t)))

/-- One line of the Citations block (formatters.py lines 80-92):
`f"{i + 1}. "`, then the linked URI when `source.uri` is truthy else
`"Source Document"`, then the index suffix when both indexes are not None. -/
def citationLine (i : Nat) (src : CitationSource) : Str :=
  let base := natStr (i + 1) ++ ". ".toList
  let base := base ++
    (if pyTruthyOptStr src.uri then
      "[".toList ++ src.uri.getD [] ++ "](".toList ++ src.uri.getD [] ++ ")".toList
    else "Source Document".toList)
  match src.start_index, src.end_index with
  | some a, some b =>
    base ++ " (Indexes: ".toList ++ intStr a ++ "-".toList ++ intStr b ++ ")".toList
  | _, _ => base

/-- The `for i, source in enumerate(...)` loop body collecting lines. -/
def citationLines (i : Nat) : List CitationSource → List Str
  | [] => []
  | src :: rest => citationLine i src :: citationLines (i + 1) rest

/-- The answer-text phase of `format_response_with_citations`
(formatters.py lines 43-73): `response.text or ""`, path preference
(`file_path if file_path else source_document_name`), and the four rewrites
guarded by `if citation_path and answer_text`. -/
def linkedAnswerText (text : Option Str)
    (source_document_name file_path : Option Str) : Str :=
  match (if pyTruthyOptStr file_path then file_path else source_document_name) with
  | some p =>
    if !p.isEmpty && !(text.getD []).isEmpty then linkPageCitations p (text.getD [])
    else text.getD []
  | none => text.getD []

/-- `format_response_with_citations` (formatters.py lines 15-94).  The
Citations block is driven by `response.candidates[0].citation_metadata`
and appended as `answer_text + "\n".join(citations)`. -/
def citationsList (response : Response) : List Str :=
  match response.candidates with
  | [] => []
  | cand :: _ =>
    match cand.citation_metadata with
    | none => []
    | some md =>
      match md.citations with
      | [] => []
      | srcs => "\n\n**Citations:**".toList :: citationLines 0 srcs

def format_response_with_citations (response : Response)
    (source_document_name file_path : Option Str) : Str :=
  linkedAnswerText response.text source_document_name file_path ++
    pyJoinNL (citationsList response)

example :
    format_response_with_citations
      ⟨some "(p. 3-7)".toList, []⟩ none (some "doc.pdf".toList) =
    "([p. 3-7](/public/doc.pdf#page=3))".toList := by decide

example :
    format_response_with_citations
      ⟨some "see (p. 5) and (p. 3-7).".toList, []⟩ (some "doc.pdf".toList) none =
    "see ([p. 5](/public/doc.pdf#page=5)) and ([p. 3-7](/public/doc.pdf#page=3)).".toList := by
  decide

example :
    format_response_with_citations
      ⟨some "x".toList,
       [⟨some ⟨[⟨some "http://x".toList, some 10, some 20⟩,
                ⟨none, none, none⟩]⟩⟩]⟩ none none =
    ("x".toList ++
      "\n\n**Citations:**\n1. [http://x](http://x) (Indexes: 10-20)\n2. Source Document".toList) := by
  decide

theorem isDigit_not_whitespace (c : Char) (h : c.isDigit = true) :
    c.isWhitespace = false := by
  rw [Char.isWhitespace]
  by_contra hw
  simp only [Bool.not_eq_false, Bool.or_eq_true, decide_eq_true_eq] at hw
  rcases hw with (((h1 | h1) | h1) | h1) <;> subst h1 <;> exact absurd h (by decide)

theorem isDigit_ne (c d : Char) (h : c.isDigit = true) (hd : d.isDigit = false) :
    c ≠ d :=
  fun he => absurd (he ▸ h) (by simp [hd])

theorem takeWhile_append_all (p : Char → Bool) (ds : Str) (x : Char) (rest : Str)
    (hds : ∀ c ∈ ds, p c = true) (hx : p x = false) :
    (ds ++ x :: rest).takeWhile p = ds := by
  induction ds with
  | nil => simp [List.takeWhile, hx]
  | cons d dt ih =>
    have h1 := hds d (List.mem_cons_self d dt)
    simp only [List.cons_append, List.takeWhile_cons, h1, if_true]
    rw [ih (fun c hc => hds c (List.mem_cons_of_mem d hc))]

theorem dropWhile_append_all (p : Char → Bool) (ds : Str) (x : Char) (rest : Str)
    (hds : ∀ c ∈ ds, p c = true) (hx : p x = false) :
    (ds ++ x :: rest).dropWhile p = x :: rest := by
  induction ds with
  | nil => simp [List.dropWhile, hx]
  | cons d dt ih =>
    have h1 := hds d (List.mem_cons_self d dt)
    simp only [List.cons_append, List.dropWhile_cons, h1, if_true]
    exact ih (fun c hc => hds c (List.mem_cons_of_mem d hc))

theorem matchQuotePage_none (c : Char) (cs : Str) (h : ¬(c = '"')) :
    matchQuotePage (c :: cs) = none := by
  simp [matchQuotePage, h]

theorem matchQuoteRange_none (c : Char) (cs : Str) (h : ¬(c = '"')) :
    matchQuoteRange (c :: cs) = none := by
  simp [matchQuoteRange, h]

theorem matchParenPage_none (c : Char) (cs : Str) (h : ¬(c = '(')) :
    matchParenPage (c :: cs) = none := by
  simp [matchParenPage, h]

theorem matchParenRange_none (c : Char) (cs : Str) (h : ¬(c = '(')) :
    matchParenRange (c :: cs) = none := by
  simp [matchParenRange, h]

/-- After `(p. ` the whitespace-then-digit scan of the tail
`<ds>-<tail>` stops exactly before the `-`. -/
theorem scan_digits_dash (ds tail : Str) (hne : ds ≠ [])
    (hds : ∀ c ∈ ds, c.isDigit = true) :
    ((' ' :: (ds ++ '-' :: tail)).dropWhile Char.isWhitespace) =
      ds ++ '-' :: tail := by
  rw [List.dropWhile_cons]
  simp only [show (' '.isWhitespace) = true from rfl, if_true]
  match ds, hne with
  | d :: dt, _ =>
    rw [List.cons_append, List.dropWhile_cons]
    have hd := isDigit_not_whitespace d (hds d (List.mem_cons_self d dt))
    simp [hd]

/-- At the head of `(p. <ds>-<es>)<post>` the single-page pattern fails:
after the digit run the scanner meets `-`, not `)`. -/
theorem matchParenPage_range_none (ds es post : Str) (hne : ds ≠ [])
    (hds : ∀ c ∈ ds, c.isDigit = true) :
    matchParenPage ('(' :: 'p' :: '.' :: ' ' :: (ds ++ '-' :: (es ++ ')' :: post))) =
      none := by
  simp only [matchParenPage, if_pos rfl]
  unfold parsePageClose
  rw [scan_digits_dash ds _ hne hds,
    takeWhile_append_all Char.isDigit ds '-' _ hds (by decide),
    dropWhile_append_all Char.isDigit ds '-' _ hds (by decide)]
  simp [hne]

/-- At the head of `(p. <ds>-<es>)<post>` the range pattern matches,
capturing `ds` and `es` and leaving `post`. -/
theorem matchParenRange_range_some (ds es post : Str)
    (hnds : ds ≠ []) (hds : ∀ c ∈ ds, c.isDigit = true)
    (hnes : es ≠ []) (hes : ∀ c ∈ es, c.isDigit = true) :
    matchParenRange ('(' :: 'p' :: '.' :: ' ' :: (ds ++ '-' :: (es ++ ')' :: post))) =
      some ((ds, es), post) := by
  simp only [matchParenRange, if_pos rfl]
  unfold parseRangeClose
  rw [scan_digits_dash ds _ hnds hds,
    takeWhile_append_all Char.isDigit ds '-' _ hds (by decide),
    dropWhile_append_all Char.isDigit ds '-' _ hds (by decide)]
  simp [hnds, hnes,
    takeWhile_append_all Char.isDigit es ')' post hes (by decide),
    dropWhile_append_all Char.isDigit es ')' post hes (by decide)]

/-- C6: the range rewrite keeps both endpoints in the link label but
anchors the link to the FIRST page number only. -/
theorem citation_range_anchor (pre post path ds es : Str)
    (hnds : ds ≠ []) (hds : ∀ c ∈ ds, c.isDigit = true)
    (hnes : es ≠ []) (hes : ∀ c ∈ es, c.isDigit = true)
    (hpath : path ≠ [])
    (hpre : ∀ c ∈ pre, ¬(c = '(') ∧ ¬(c = '"'))
    (hpost : ∀ c ∈ post, ¬(c = '(') ∧ ¬(c = '"')) :
    format_response_with_citations
      ⟨some (pre ++ "(p. ".toList ++ ds ++ "-".toList ++ es ++ ")".toList ++ post),
       []⟩
      none (some path) =
    pre ++ "([p. ".toList ++ ds ++ "-".toList ++ es ++ "](/public/".toList ++
      path ++ "#page=".toList ++ ds ++ "))".toList ++ post := by
  have htext : pre ++ "(p. ".toList ++ ds ++ "-".toList ++ es ++ ")".toList ++ post =
      pre ++ '(' :: 'p' :: '.' :: ' ' :: (ds ++ '-' :: (es ++ ')' :: post)) := by
    simp
  -- character-class facts
  have hdsfacts : ∀ c ∈ ds, ¬(c = '(') ∧ ¬(c = '"') := fun c hc =>
    ⟨isDigit_ne c '(' (hds c hc) (by decide),
     isDigit_ne c '"' (hds c hc) (by decide)⟩
  have hesfacts : ∀ c ∈ es, ¬(c = '(') ∧ ¬(c = '"') := fun c hc =>
    ⟨isDigit_ne c '(' (hes c hc) (by decide),
     isDigit_ne c '"' (hes c hc) (by decide)⟩
  have hmidtail : ∀ c ∈ ('p' :: '.' :: ' ' :: (ds ++ '-' :: (es ++ ')' :: post))),
      ¬(c = '(') ∧ ¬(c = '"') := by
    intro c hc
    simp only [List.mem_cons, List.mem_append] at hc
    rcases hc with h | h | h | h | h | h | h
    · subst h; exact ⟨by decide, by decide⟩
    · subst h; exact ⟨by decide, by decide⟩
    · subst h; exact ⟨by decide, by decide⟩
    · exact hdsfacts c h
    · subst h; exact ⟨by decide, by decide⟩
    · exact hesfacts c h
    · rcases h with h | h
      · subst h; exact ⟨by decide, by decide⟩
      · exact hpost c h
  have hallNoQuote : ∀ c ∈ pre ++ '(' :: 'p' :: '.' :: ' ' ::
      (ds ++ '-' :: (es ++ ')' :: post)), ¬(c = '"') := by
    intro c hc
    rcases List.mem_append.mp hc with h | h
    · exact (hpre c h).2
    · rcases List.mem_cons.mp h with h | h
      · subst h; decide
      · exact (hmidtail c h).2
  -- step 1: the quoted single-page pattern never fires (no quote anywhere)
  have s1 : reSub matchQuotePage (quotePageRepl path)
      (pre ++ '(' :: 'p' :: '.' :: ' ' :: (ds ++ '-' :: (es ++ ')' :: post))) =
      pre ++ '(' :: 'p' :: '.' :: ' ' :: (ds ++ '-' :: (es ++ ')' :: post)) :=
    reSub_no_trigger _ _ (fun c => c = '"')
      (fun c cs h => matchQuotePage_none c cs h) _ hallNoQuote
  -- step 2: the single-page pattern fails at the opening parenthesis
  have s2 : reSub matchParenPage (parenPageRepl path)
      (pre ++ '(' :: 'p' :: '.' :: ' ' :: (ds ++ '-' :: (es ++ ')' :: post))) =
      pre ++ '(' :: 'p' :: '.' :: ' ' :: (ds ++ '-' :: (es ++ ')' :: post)) := by
    rw [reSub_append_no_trigger _ _ (fun c => c = '(')
      (fun c cs h => matchParenPage_none c cs h) pre _
      (fun c hc => (hpre c hc).1)]
    rw [reSub_cons_nomatch _ _ _ _ (matchParenPage_range_none ds es post hnds hds)]
    rw [reSub_no_trigger _ _ (fun c => c = '(')
      (fun c cs h => matchParenPage_none c cs h) _
      (fun c hc => (hmidtail c hc).1)]
  -- step 3: the quoted range pattern never fires
  have s3 : reSub matchQuoteRange (quoteRangeRepl path)
      (pre ++ '(' :: 'p' :: '.' :: ' ' :: (ds ++ '-' :: (es ++ ')' :: post))) =
      pre ++ '(' :: 'p' :: '.' :: ' ' :: (ds ++ '-' :: (es ++ ')' :: post)) :=
    reSub_no_trigger _ _ (fun c => c = '"')
      (fun c cs h => matchQuoteRange_none c cs h) _ hallNoQuote
  -- step 4: the range pattern fires, anchored to the first page number
  have s4 : reSub matchParenRange (parenRangeRepl path)
      (pre ++ '(' :: 'p' :: '.' :: ' ' :: (ds ++ '-' :: (es ++ ')' :: post))) =
      pre ++ parenRangeRepl path (ds, es) ++ post := by
    rw [reSub_append_no_trigger _ _ (fun c => c = '(')
      (fun c cs h => matchParenRange_none c cs h) pre _
      (fun c hc => (hpre c hc).1)]
    rw [reSub_cons_match _ _ matchParenRange_shrink _ _ _ _
      (matchParenRange_range_some ds es post hnds hds hnes hes)]
    rw [reSub_no_trigger _ _ (fun c => c = '(')
      (fun c cs h => matchParenRange_none c cs h) post
      (fun c hc => (hpost c hc).1), List.append_assoc]
  have hne : (pre ++ '(' :: 'p' :: '.' :: ' ' ::
      (ds ++ '-' :: (es ++ ')' :: post))).isEmpty = false := by
    cases pre <;> rfl
  have hpne : (path.isEmpty = false) := by
    cases path with
    | nil => exact absurd rfl hpath
    | cons a l => rfl
  unfold format_response_with_citations citationsList
  simp only [pyJoinNL, List.append_nil]
  unfold linkedAnswerText
  rw [show pyTruthyOptStr (some path) = true from by
    simp [pyTruthyOptStr, hpne]]
  simp only [if_true, Option.getD_some]
  rw [htext]
  simp only [hpne, hne, Bool.not_false, Bool.and_self, if_true]
  unfold linkPageCitations
  rw [s1, s2, s3, s4]
  simp [parenRangeRepl]

/-- Closed witness for `citation_range_anchor` at the spec's own example. -/
theorem citation_range_anchor_witness :
    format_response_with_citations
      ⟨some ("x ".toList ++ "(p. ".toList ++ "3".toList ++ "-".toList ++
        "7".toList ++ ")".toList ++ " y".toList), []⟩
      none (some "doc.pdf".toList) =
    "x ".toList ++ "([p. ".toList ++ "3".toList ++ "-".toList ++ "7".toList ++
      "](/public/".toList ++ "doc.pdf".toList ++ "#page=".toList ++
      "3".toList ++ "))".toList ++ " y".toList := by
  exact citation_range_anchor "x ".toList " y".toList "doc.pdf".toList
    "3".toList "7".toList (by decide) (by decide) (by decide) (by decide)
    (by decide) (by decide) (by decide)

/-! ## C7 : citations block formatting -/

/-- One line of the Citations block as the specification words it:
index, then the linked URI when a URI is present else `Source Document`,
then the index suffix when both indexes are present. -/
def specCitationLine (i : Nat) (src : CitationSource) : Str :=
  natStr (i + 1) ++ ". ".toList ++
  (match src.uri with
   | some u => "[".toList ++ u ++ "](".toList ++ u ++ ")".toList
   | none => "Source Document".toList) ++
  (match src.start_index, src.end_index with
   | some a, some b =>
     " (Indexes: ".toList ++ intStr a ++ "-".toList ++ intStr b ++ ")".toList
   | _, _ => [])

/-- The lines of the Citations block from index `i` on, each preceded by
the newline that joins it to the previous line. -/
def specLinesFrom (i : Nat) : List CitationSource → Str
  | [] => []
  | src :: rest => '\n' :: specCitationLine i src ++ specLinesFrom (i + 1) rest

theorem citationLine_eq_spec (i : Nat) (src : CitationSource)
    (hu : src.uri ≠ some []) : citationLine i src = specCitationLine i src := by
  unfold citationLine specCitationLine
  cases huri : src.uri with
  | none =>
    cases src.start_index <;> cases src.end_index <;>
      simp [pyTruthyOptStr, List.append_assoc]
  | some u =>
    cases u with
    | nil => exact absurd huri hu
    | cons a l =>
      cases src.start_index <;> cases src.end_index <;>
        simp [pyTruthyOptStr, List.append_assoc]

theorem pyJoinNL_cons_lines (hd : Str) (i : Nat) (srcs : List CitationSource)
    (hu : ∀ src ∈ srcs, src.uri ≠ some []) :
    pyJoinNL (hd :: citationLines i srcs) = hd ++ specLinesFrom i srcs := by
  induction srcs generalizing hd i with
  | nil => simp [pyJoinNL, citationLines, specLinesFrom]
  | cons src rest ih =>
    simp only [citationLines, specLinesFrom]
    rw [show pyJoinNL (hd :: citationLine i src :: citationLines (i + 1) rest) =
        hd ++ '\n' :: pyJoinNL (citationLine i src :: citationLines (i + 1) rest)
      from rfl]
    rw [ih (citationLine i src) (i + 1)
      (fun s hs => hu s (List.mem_cons_of_mem src hs))]
    rw [citationLine_eq_spec i src (hu src (List.mem_cons_self src rest))]
    rfl

/-- C7: with at least one citation source on the first candidate, exactly
the literal header line plus one numbered line per source is appended; a
source with a URI is rendered as a markdown link, one without as
`Source Document`, with the index-range suffix only when both indexes are
present; with no citation sources nothing is appended.  The concrete
instance of the claim is stated last. -/
theorem citations_block_format :
    (∀ (t : Str) (srcs : List CitationSource) (tail : List Candidate),
      srcs ≠ [] → (∀ src ∈ srcs, src.uri ≠ some []) →
      format_response_with_citations ⟨some t, ⟨some ⟨srcs⟩⟩ :: tail⟩ none none =
        t ++ "\n\n**Citations:**".toList ++ specLinesFrom 0 srcs) ∧
    (∀ (t : Str) (tail : List Candidate),
      format_response_with_citations ⟨some t, ⟨some ⟨[]⟩⟩ :: tail⟩ none none = t) ∧
    (∀ t : Str,
      format_response_with_citations
        ⟨some t, [⟨some ⟨[⟨some "http://x".toList, some 10, some 20⟩,
                          ⟨none, none, none⟩]⟩⟩]⟩ none none =
        t ++ "\n\n**Citations:**\n1. [http://x](http://x) (Indexes: 10-20)\n2. Source Document".toList) := by
  refine ⟨?_, ?_, ?_⟩
  · intro t srcs tail hne hu
    unfold format_response_with_citations citationsList
    cases srcs with
    | nil => exact absurd rfl hne
    | cons src rest =>
      rw [show linkedAnswerText (some t) none none = t from rfl]
      simp only []
      rw [pyJoinNL_cons_lines _ 0 (src :: rest) hu]
      rw [List.append_assoc]
  · intro t tail
    unfold format_response_with_citations citationsList
    rw [show linkedAnswerText (some t) none none = t from rfl]
    simp [pyJoinNL]
  · intro t
    unfold format_response_with_citations
    rw [show linkedAnswerText (some t) none none = t from rfl]
    rw [show citationsList
        ⟨some t, [⟨some ⟨[⟨some "http://x".toList, some 10, some 20⟩,
                          ⟨none, none, none⟩]⟩⟩]⟩ =
      "\n\n**Citations:**".toList ::
        citationLines 0 [⟨some "http://x".toList, some 10, some 20⟩,
                         ⟨none, none, none⟩] from rfl]
    exact congrArg (fun x => t ++ x) (by decide)

/-- Closed witness for `citations_block_format` at the spec's two-source
example. -/
theorem citations_block_format_witness :
    format_response_with_citations
      ⟨some "x".toList, [⟨some ⟨[⟨some "http://x".toList, some 10, some 20⟩,
                                 ⟨none, none, none⟩]⟩⟩]⟩ none none =
      "x".toList ++ "\n\n**Citations:**".toList ++
        specLinesFrom 0 [⟨some "http://x".toList, some 10, some 20⟩,
                         ⟨none, none, none⟩] := by
  exact citations_block_format.1 "x".toList
    [⟨some "http://x".toList, some 10, some 20⟩, ⟨none, none, none⟩] []
    (by decide) (by decide)

/-! ## C10 : only the first candidate's metadata drives the block -/

/-- C10: when the response has no candidates, or its first candidate has no
citation metadata, the formatter returns just the (possibly link-rewritten)
answer text — nothing is appended even if later candidates carry citation
sources. -/
theorem citations_first_candidate_only (t : Option Str) (rest : List Candidate)
    (n p : Option Str) :
    format_response_with_citations ⟨t, []⟩ n p = linkedAnswerText t n p ∧
    format_response_with_citations ⟨t, ⟨none⟩ :: rest⟩ n p =
      linkedAnswerText t n p := by
  constructor <;>
    (unfold format_response_with_citations citationsList; simp [pyJoinNL])

/-! ## C8 : file-activation waiting (src/core/rag_manager.py lines 64-93)

`client.files.get` is external; each file's successive fetch results are
modelled as an explicit list.  `time.sleep(2)` is modelled by counting the
sleeps (each of which is 2 seconds in the source). -/

/-- One result of `client.files.get(name=...)`: the fields the loop reads. -/
structure RemoteFileObj where
  name : Str
  state : Str
deriving Repr, DecidableEq

/-- One argument file together with the scripted fetch results the remote
service would return for it.  An empty `name` models Python-falsy
`file.name`. -/
structure RemoteFile where
  name : Str
  fetches : List RemoteFileObj
deriving Repr, DecidableEq

inductive PollOutcome where
  | active (sleeps : Nat)
  | failed (objName : Str) (sleeps : Nat)
deriving Repr, DecidableEq

/-- The inner `while file_obj.state == "PROCESSING"` loop for one file:
each `PROCESSING` observation costs one 2-second sleep before the next
fetch; the first non-`PROCESSING` state decides the outcome.  `none` means
the fetch script ran out while still `PROCESSING` (the real loop would
still be running). -/
def poll_file : List RemoteFileObj → Option PollOutcome
  | [] => none
  | f :: rest =>
    if f.state == "PROCESSING".toList then
      match poll_file rest with
      | none => none
      | some (.active n) => some (.active (n + 1))
      | some (.failed nm n) => some (.failed nm (n + 1))
    else if f.state == "ACTIVE".toList then some (.active 0)
    else some (.failed f.name 0)

inductive WaitOutcome where
  | ok (total_sleeps : Nat)
  | error (msg : Str)
  | stuck
deriving Repr, DecidableEq

/-- `wait_for_files_active` (rag_manager.py lines 64-93): per file, raise
if it has no name, else poll until non-`PROCESSING`; raise naming the
fetched file object if that state is not `ACTIVE`. -/
def wait_for_files_active : List RemoteFile → WaitOutcome
  | [] => .ok 0
  | f :: rest =>
    if f.name == [] then .error "File has no name".toList
    else
      match poll_file f.fetches with
      | none => .stuck
      | some (.failed nm _) =>
        .error ("File ".toList ++ nm ++ " failed to process".toList)
      | some (.active n) =>
        match wait_for_files_active rest with
        | .ok m => .ok (n + m)
        | other => other

theorem poll_file_active (pfx : List RemoteFileObj) (obj : RemoteFileObj)
    (rest : List RemoteFileObj)
    (hp : ∀ o ∈ pfx, o.state = "PROCESSING".toList)
    (ha : obj.state = "ACTIVE".toList) :
    poll_file (pfx ++ obj :: rest) = some (.active pfx.length) := by
  induction pfx with
  | nil =>
    simp only [List.nil_append, poll_file, ha]
    rfl
  | cons o os ih =>
    simp only [List.cons_append, poll_file,
      hp o (List.mem_cons_self o os), beq_self_eq_true, if_true]
    simp only [List.append_eq]
    rw [ih (fun x hx => hp x (List.mem_cons_of_mem o hx))]
    simp

theorem poll_file_failed (pfx : List RemoteFileObj) (obj : RemoteFileObj)
    (rest : List RemoteFileObj)
    (hp : ∀ o ∈ pfx, o.state = "PROCESSING".toList)
    (hnp : obj.state ≠ "PROCESSING".toList)
    (hna : obj.state ≠ "ACTIVE".toList) :
    poll_file (pfx ++ obj :: rest) = some (.failed obj.name pfx.length) := by
  induction pfx with
  | nil =>
    simp only [List.nil_append, poll_file]
    rw [if_neg (by simpa using hnp), if_neg (by simpa using hna)]
    rfl
  | cons o os ih =>
    simp only [List.cons_append, poll_file,
      hp o (List.mem_cons_self o os), beq_self_eq_true, if_true]
    simp only [List.append_eq]
    rw [ih (fun x hx => hp x (List.mem_cons_of_mem o hx))]
    simp

/-- C8: `wait_for_files_active` errors at once on a file with no name;
a file observed `PROCESSING` k times and then `ACTIVE` returns normally
after exactly k 2-second sleeps (so `PROCESSING, PROCESSING, ACTIVE` means
exactly two sleeps); and if the first non-`PROCESSING` state observed is
anything other than `ACTIVE`, it errors naming that file. -/
theorem wait_for_files_active_spec :
    (∀ (fetches : List RemoteFileObj) (rest : List RemoteFile),
      wait_for_files_active (⟨[], fetches⟩ :: rest) =
        .error "File has no name".toList) ∧
    (∀ (nm : Str) (pfx : List RemoteFileObj) (obj : RemoteFileObj)
        (tail : List RemoteFileObj), nm ≠ [] →
      (∀ o ∈ pfx, o.state = "PROCESSING".toList) →
      obj.state = "ACTIVE".toList →
      wait_for_files_active [⟨nm, pfx ++ obj :: tail⟩] = .ok pfx.length) ∧
    (∀ (nm : Str) (pfx : List RemoteFileObj) (obj : RemoteFileObj)
        (tail : List RemoteFileObj), nm ≠ [] →
      (∀ o ∈ pfx, o.state = "PROCESSING".toList) →
      obj.state ≠ "PROCESSING".toList →
      obj.state ≠ "ACTIVE".toList →
      wait_for_files_active [⟨nm, pfx ++ obj :: tail⟩] =
        .error ("File ".toList ++ obj.name ++ " failed to process".toList)) := by
  refine ⟨?_, ?_, ?_⟩
  · intro fetches rest
    simp [wait_for_files_active]
  · intro nm pfx obj tail hnm hp ha
    simp only [wait_for_files_active]
    rw [if_neg (by simpa using hnm), poll_file_active pfx obj tail hp ha]
    simp [wait_for_files_active]
  · intro nm pfx obj tail hnm hp hnp hna
    simp only [wait_for_files_active]
    rw [if_neg (by simpa using hnm), poll_file_failed pfx obj tail hp hnp hna]

/-- Closed witness: the spec's `PROCESSING, PROCESSING, ACTIVE` sequence
returns after exactly two sleeps; a nameless file errors immediately; a
final `FAILED` state errors naming the file. -/
theorem wait_for_files_active_spec_witness :
    wait_for_files_active
      [⟨"f1".toList, [⟨"f1".toList, "PROCESSING".toList⟩,
                      ⟨"f1".toList, "PROCESSING".toList⟩,
                      ⟨"f1".toList, "ACTIVE".toList⟩]⟩] = .ok 2 ∧
    wait_for_files_active [⟨[], []⟩] = .error "File has no name".toList ∧
    wait_for_files_active
      [⟨"f1".toList, [⟨"f1".toList, "PROCESSING".toList⟩,
                      ⟨"f1".toList, "FAILED".toList⟩]⟩] =
      .error ("File ".toList ++ "f1".toList ++ " failed to process".toList) := by
  refine ⟨?_, ?_, ?_⟩
  · exact wait_for_files_active_spec.2.1 "f1".toList
      [⟨"f1".toList, "PROCESSING".toList⟩, ⟨"f1".toList, "PROCESSING".toList⟩]
      ⟨"f1".toList, "ACTIVE".toList⟩ [] (by decide) (by decide) (by decide)
  · exact wait_for_files_active_spec.1 [] []
  · exact wait_for_files_active_spec.2.2 "f1".toList
      [⟨"f1".toList, "PROCESSING".toList⟩] ⟨"f1".toList, "FAILED".toList⟩ []
      (by decide) (by decide) (by decide) (by decide)

/-! ## C9 : profile listing and name disambiguation
(app_multiuser.py lines 32-90) -/

/-- A chat profile as built by `chat_profile` (the presentational
`markdown_description`/`icon` fields are not modelled). -/
structure ChatProfile where
  name : Str
  default : Bool
deriving Repr, DecidableEq

/-- Python dict read `title_counts.get(t)` over an association list. -/
def lookupCount (d : List (Str × Nat)) (t : Str) : Option Nat :=
  (d.find? (fun p => p.1 == t)).map (fun p => p.2)

/-- Python dict write `title_counts[t] = n`. -/
def setCount (d : List (Str × Nat)) (t : Str) (n : Nat) : List (Str × Nat) :=
  match d with
  | [] => [(t, n)]
  | p :: rest => if p.1 == t then (t, n) :: rest else p :: setCount rest t n

/-- The `for idx, session in enumerate(sessions[:5])` loop of
`chat_profile`: a repeated title gets `" (N)"` appended for its Nth
occurrence; `default` is set on index 0 (the most recent session). -/
def profileLoop (idx : Nat) (counts : List (Str × Nat)) :
    List SessionListItem → List ChatProfile
  | [] => []
  | s :: rest =>
    match lookupCount counts s.title with
    | some n =>
      ⟨s.title ++ " (".toList ++ natStr (n + 1) ++ ")".toList, idx == 0⟩ ::
        profileLoop (idx + 1) (setCount counts s.title (n + 1)) rest
    | none =>
      ⟨s.title, idx == 0⟩ :: profileLoop (idx + 1) (setCount counts s.title 1) rest

/-- The body of `chat_profile` after fetching the user's sessions
(most-recent first): the 5 most recent disambiguated profiles, then the
fixed `new_chat` (default only with zero sessions) and `manage_chats`. -/
def chat_profile_sessions (sessions : List SessionListItem) : List ChatProfile :=
  profileLoop 0 [] (sessions.take 5) ++
    [⟨"new_chat".toList, sessions.length == 0⟩, ⟨"manage_chats".toList, false⟩]

/-- `chat_profile` (lines 32-90): an absent or falsy user id yields no
profiles; else the profiles are built from `ChatSession.list_by_user`. -/
def chat_profile (user_id : Option Nat) (db : DB) : List ChatProfile :=
  match user_id with
  | none => []
  | some uid =>
    if uid == 0 then []
    else chat_profile_sessions (ChatSession.list_by_user db uid)

/-- The specification's wording of the display names: walking the titles
in order, the Nth occurrence of a repeated title is suffixed `" (N)"`,
the first occurrence is unsuffixed. -/
def disambigNames (seen : List Str) : List Str → List Str
  | [] => []
  | t :: rest =>
    (if seen.count t = 0 then t
     else t ++ " (".toList ++ natStr (seen.count t + 1) ++ ")".toList) ::
      disambigNames (seen ++ [t]) rest

theorem strBeqFalse {t t' : Str} (h : ¬(t = t')) : (t == t') = false := by
  simp [h]

theorem lookupCount_setCount (d : List (Str × Nat)) (t t' : Str) (n : Nat) :
    lookupCount (setCount d t n) t' =
      if t' = t then some n else lookupCount d t' := by
  induction d with
  | nil =>
    by_cases h : t' = t
    · subst h
      simp [setCount, lookupCount, List.find?]
    · simp [setCount, lookupCount, List.find?, h,
        strBeqFalse (fun he => h he.symm)]
  | cons p rest ih =>
    by_cases hp : p.1 = t
    · by_cases h : t' = t
      · subst h
        simp [setCount, lookupCount, List.find?, hp]
      · have hpb : (p.1 == t') = false := hp ▸ strBeqFalse (fun he => h he.symm)
        simp [setCount, lookupCount, List.find?, hp, h,
          strBeqFalse (fun he => h he.symm), hpb]
    · have hpb : (p.1 == t) = false := strBeqFalse hp
      by_cases hq : p.1 = t'
      · have hne : ¬(t' = t) := fun he => hp (hq.trans he)
        simp [setCount, lookupCount, List.find?, hpb, hq, hne]
      · have hqb : (p.1 == t') = false := strBeqFalse hq
        have e : ∀ X, lookupCount (p :: X) t' = lookupCount X t' := by
          intro X
          simp [lookupCount, List.find?, hqb]
        simp only [setCount, hpb, Bool.false_eq_true, if_false]
        simp only [e, ih]
theorem profileLoop_names (sess : List SessionListItem) :
    ∀ (idx : Nat) (counts : List (Str × Nat)) (seen : List Str),
    (∀ t, lookupCount counts t =
      if seen.count t = 0 then none else some (seen.count t)) →
    (profileLoop idx counts sess).map (fun p => p.name) =
      disambigNames seen (sess.map (fun s => s.title)) := by
  induction sess with
  | nil => intro idx counts seen hinv; rfl
  | cons s rest ih =>
    intro idx counts seen hinv
    have hnext : ∀ (k : Nat), k = seen.count s.title + 1 →
        ∀ t, lookupCount (setCount counts s.title k) t =
          if (seen ++ [s.title]).count t = 0 then none
          else some ((seen ++ [s.title]).count t) := by
      intro k hk t
      rw [lookupCount_setCount]
      by_cases ht : t = s.title
      · subst ht
        simp [List.count_append, hk]
      · have hone : List.count t [s.title] = 0 := by
          simp [List.count_cons, strBeqFalse ht,
            strBeqFalse (fun he => ht he.symm)]
        have : (seen ++ [s.title]).count t = seen.count t := by
          rw [List.count_append, hone, Nat.add_zero]
        rw [this, if_neg ht, hinv t]
    have hlook := hinv s.title
    simp only [profileLoop, List.map_cons, disambigNames]
    by_cases h0 : seen.count s.title = 0
    · rw [if_pos h0] at hlook
      rw [hlook]
      simp only [List.map_cons, if_pos h0]
      rw [ih (idx + 1) _ _ (hnext 1 (by omega))]
    · rw [if_neg h0] at hlook
      rw [hlook]
      simp only [List.map_cons, if_neg h0]
      rw [ih (idx + 1) _ _ (hnext (seen.count s.title + 1) rfl)]

theorem profileLoop_defaults (sess : List SessionListItem) :
    ∀ (idx : Nat) (counts : List (Str × Nat)),
    (profileLoop idx counts sess).map (fun p => p.default) =
      (List.range sess.length).map (fun k => idx + k == 0) := by
  induction sess with
  | nil => intro idx counts; rfl
  | cons s rest ih =>
    intro idx counts
    simp only [profileLoop]
    have key : ∀ (nm : Str) (counts' : List (Str × Nat)),
        ((⟨nm, idx == 0⟩ :: profileLoop (idx + 1) counts' rest).map
          (fun p => p.default)) =
        (List.range (rest.length + 1)).map (fun k => idx + k == 0) := by
      intro nm counts'
      simp only [List.map_cons]
      rw [ih (idx + 1) counts']
      rw [List.range_succ_eq_map, List.map_cons, List.map_map]
      have : (idx == 0) = (idx + 0 == 0) := by simp
      rw [this]
      congr 1
      exact listMapCongrOn _ _ _ (fun x _ => by
        simp only [Function.comp_apply]
        rw [show idx + (x + 1) = idx + 1 + x from by omega])
    cases lookupCount counts s.title with
    | some n => exact key _ _
    | none => exact key _ _

/-- C9: profile names are the spec's disambiguation of the 5 most recent
titles followed by the two fixed profiles; the first (most recent) profile
is the default selection, `new_chat` is default exactly when the user has
zero sessions, `manage_chats` never; and the spec's `Doc, Doc, Report`
example produces `Doc, Doc (2), Report`. -/
theorem chat_profile_disambiguation :
    (∀ sessions : List SessionListItem,
      (chat_profile_sessions sessions).map (fun p => p.name) =
        disambigNames [] ((sessions.take 5).map (fun s => s.title)) ++
          ["new_chat".toList, "manage_chats".toList]) ∧
    (∀ sessions : List SessionListItem,
      (chat_profile_sessions sessions).map (fun p => p.default) =
        (List.range (sessions.take 5).length).map (fun k => k == 0) ++
          [sessions.length == 0, false]) ∧
    ((chat_profile_sessions
        [⟨1, "Doc".toList, 0, 30⟩, ⟨2, "Doc".toList, 0, 20⟩,
         ⟨3, "Report".toList, 0, 10⟩]).map (fun p => p.name) =
      ["Doc".toList, "Doc (2)".toList, "Report".toList,
       "new_chat".toList, "manage_chats".toList]) := by
  refine ⟨?_, ?_, ?_⟩
  · intro sessions
    unfold chat_profile_sessions
    rw [List.map_append]
    rw [profileLoop_names (sessions.take 5) 0 [] []
      (fun t => by simp [lookupCount, List.find?])]
    rfl
  · intro sessions
    unfold chat_profile_sessions
    rw [List.map_append]
    rw [profileLoop_defaults (sessions.take 5) 0 []]
    congr 1
    exact listMapCongrOn _ _ _ (fun x _ => by rw [Nat.zero_add])
  · decide

/-! ## C1 : multi-user ordinary message handling on a failed send
(app_multiuser.py lines 713-784)

The `on_message` handler `main` is modelled for a message without
attachments.  The remote `gemini_chat.send_message` call is external and
its result is passed in as `send`: `.ok response` or `.error e` (the
caught exception's text).  The `except` block at lines 782-784 only
displays `f"❌ An error occurred: {str(e)}"` — it does not call
`Message.create`. -/

/-- Python truthiness of an optional integer (`None` and `0` are falsy). -/
def pyTruthyOptNat : Option Nat → Bool
  | none => false
  | some n => n != 0

/-- The per-browser-session state read by `main`. -/
structure SessionState where
  registration_step : Option Str
  pending_rename_session_id : Option Nat
  chat_session_id : Option Nat
  user_id : Option Nat
  gemini_chat : Bool
deriving Repr, DecidableEq

/-- What `main` did besides its database writes. -/
inductive MainOutcome where
  | registrationStep
  | pendingRename
  | noActiveSession
  | noText
  | reply (text : Str)
  | errorShown (text : Str)
deriving Repr, DecidableEq

/-- `get_citation_file_path` (app_multiuser.py lines 650-676). -/
def get_citation_file_path (st : SessionState)
    (source_document_name : Option Str) : Option Str :=
  match source_document_name with
  | none => none
  | some nm =>
    if nm == [] then none
    else if pyTruthyOptNat st.user_id && pyTruthyOptNat st.chat_session_id then
      some (natStr (st.user_id.getD 0) ++ "/".toList ++
        natStr (st.chat_session_id.getD 0) ++ "/".toList ++ nm)
    else some nm

/-- `main` (lines 713-784) for a message with no attachments: route
registration and pending-rename first; require an active session; with
textual content, persist the user's turn, send, then on success persist
the assistant's reply and render it with citations, while on failure only
display the formatted error text. -/
def app_multiuser_main (db : DB) (st : SessionState) (content : Str)
    (send : Except Str Response) (new_user_msg_id new_asst_msg_id now : Nat) :
    DB × MainOutcome :=
  if pyTruthyOptStr st.registration_step then (db, .registrationStep)
  else if pyTruthyOptNat st.pending_rename_session_id then (db, .pendingRename)
  else if !(pyTruthyOptNat st.chat_session_id) then (db, .noActiveSession)
  else
    let sid := st.chat_session_id.getD 0
    if content == [] then (db, .noText)
    else
      let db1 := (Message.create db sid "user".toList content new_user_msg_id now).1
      match send with
      | .ok response =>
        let response_text := response.text.getD []
        let db2 := (Message.create db1 sid "assistant".toList response_text
          new_asst_msg_id now).1
        let documents := Document.list_by_session db2 sid
        let doc_filename := documents.head?.map (fun d => d.filename)
        let file_path := get_citation_file_path st doc_filename
        (db2, .reply (format_response_with_citations response doc_filename file_path))
      | .error e => (db1, .errorShown ("❌ An error occurred: ".toList ++ e))

/-- Counterexample to C1: in a session with an active `chat_session_id`,
after a failed send no message row with role `assistant` exists at all —
the formatted error text is not persisted as the assistant's turn. -/
theorem error_reply_not_persisted_cex :
    ¬ ∃ m ∈ (app_multiuser_main
        ⟨[⟨1, 1, "T".toList, 0, 0, false⟩], [], []⟩
        ⟨none, none, some 1, some 1, true⟩
        "hi".toList (.error "boom".toList) 10 11 5).1.messages,
      m.role = "assistant".toList := by
  decide

/-- C1 as amended: on a failed send the handler persists only the user's
turn (bumping the session's `updated_at`) and merely displays the
formatted error text `"❌ An error occurred: <e>"`; no assistant-role
message row is created. -/
theorem error_reply_displayed_only (db : DB) (st : SessionState)
    (content e : Str) (uid_msg aid_msg now sid : Nat)
    (hreg : pyTruthyOptStr st.registration_step = false)
    (hren : pyTruthyOptNat st.pending_rename_session_id = false)
    (hsid : st.chat_session_id = some sid) (hs0 : sid ≠ 0)
    (hcontent : content ≠ []) :
    app_multiuser_main db st content (.error e) uid_msg aid_msg now =
      ((Message.create db sid "user".toList content uid_msg now).1,
       .errorShown ("❌ An error occurred: ".toList ++ e)) ∧
    ∀ m ∈ (app_multiuser_main db st content (.error e)
        uid_msg aid_msg now).1.messages,
      m.role = "assistant".toList → m ∈ db.messages := by
  have hmain : app_multiuser_main db st content (.error e) uid_msg aid_msg now =
      ((Message.create db sid "user".toList content uid_msg now).1,
       .errorShown ("❌ An error occurred: ".toList ++ e)) := by
    unfold app_multiuser_main
    rw [hreg, hsid]
    simp only [Bool.false_eq_true, if_false, hren]
    rw [show pyTruthyOptNat (some sid) = true from by
      simp [pyTruthyOptNat, hs0]]
    simp only [Bool.not_true, Bool.false_eq_true, if_false, Option.getD_some]
    rw [show (content == []) = false from by
      simpa using hcontent]
    simp only [Bool.false_eq_true, if_false]
  refine ⟨hmain, ?_⟩
  intro m hm hrole
  rw [hmain] at hm
  unfold Message.create at hm
  simp only [List.mem_append, List.mem_singleton] at hm
  rcases hm with hm | hm
  · exact hm
  · rw [hm] at hrole
    simp at hrole

/-- Closed witness for `error_reply_displayed_only`. -/
theorem error_reply_displayed_only_witness :
    app_multiuser_main ⟨[⟨1, 1, "T".toList, 0, 0, false⟩], [], []⟩
        ⟨none, none, some 1, some 1, true⟩
        "hi".toList (.error "boom".toList) 10 11 5 =
      ((Message.create ⟨[⟨1, 1, "T".toList, 0, 0, false⟩], [], []⟩
          1 "user".toList "hi".toList 10 5).1,
       .errorShown ("❌ An error occurred: ".toList ++ "boom".toList)) ∧
    ∀ m ∈ (app_multiuser_main ⟨[⟨1, 1, "T".toList, 0, 0, false⟩], [], []⟩
        ⟨none, none, some 1, some 1, true⟩
        "hi".toList (.error "boom".toList) 10 11 5).1.messages,
      m.role = "assistant".toList →
        m ∈ ([] : List MessageRow) := by
  exact error_reply_displayed_only
    ⟨[⟨1, 1, "T".toList, 0, 0, false⟩], [], []⟩
    ⟨none, none, some 1, some 1, true⟩
    "hi".toList "boom".toList 10 11 5 1
    (by decide) (by decide) (by decide) (by decide) (by decide)
